import Mathlib

/-!
A shallow embedding of the spending-analyzer app (src/app.py): the table
loader (text decoding, blank-line removal, delimiter sniffing with an
explicit fallback chain) and the budget evaluator (period filter, expense
filter, keyword matching, aggregation), together with the bundled sample
dataset.  Python floats are modelled as rationals, text as lists of
characters, a raised exception as an `Except`/`Option` value, and the
library calls the app makes (`str.lower`, `str.strip`, `str.split`,
`bytes.decode`, `pandas.Series.str.contains`, `pandas.read_csv` on the
plain comma file it is given) are modelled on the inputs the app feeds
them, as noted at each definition.
-/

/-- Text is modelled as a list of characters. -/
abbrev Str := List Char

/-- The characters of a Lean string literal. -/
def chars (s : String) : Str := s.data

/-- Python `str.lower` for one character, on the ASCII range (the only range
the app's data and keyword matching exercise). -/
def lowerChar (c : Char) : Char :=
  if 'A' ≤ c && c ≤ 'Z' then Char.ofNat (c.toNat + 32) else c

/-- Python `str.lower` (src/app.py lines 219 and 224). -/
def lowerChars (s : Str) : Str := s.map lowerChar

/-- The ASCII whitespace characters Python `str.strip` removes. -/
def isSpaceChar (c : Char) : Bool :=
  c == ' ' || c == '\t' || c == '\n' || c == '\r' || c == '\x0b' || c == '\x0c'

/-- Python `str.strip` (src/app.py lines 45, 101, 214, 219). -/
def stripChars (s : Str) : Str :=
  ((s.dropWhile isSpaceChar).reverse.dropWhile isSpaceChar).reverse

/-- Python `str.split(sep)` for a one-character separator (src/app.py
line 219, `kw_str.split(",")`); the result list is never empty. -/
def splitOnChar (sep : Char) : Str → List Str
  | [] => [[]]
  | c :: cs =>
    match splitOnChar sep cs with
    | [] => [[c]]
    | h :: t => if c == sep then [] :: h :: t else (c :: h) :: t

/-- Whether the first list is a prefix of the second, by literal character
equality. -/
def startsWithChars : Str → Str → Bool
  | [], _ => true
  | _ :: _, [] => false
  | p :: ps, c :: cs => p == c && startsWithChars ps cs

/-- Literal substring containment: `containsChars hay needle` is true when
`needle` occurs contiguously in `hay`.  This is the spec's wording of the
keyword test ("contains any keyword as a substring"); the code's own test is
`reSearch` below. -/
def containsChars : Str → Str → Bool
  | [], needle => needle.isEmpty
  | c :: rest, needle => startsWithChars needle (c :: rest) || containsChars rest needle

/-- Whether the pattern matches a prefix of the text, where the pattern
character `.` matches any character and every other character matches
itself. -/
def matchAt : Str → Str → Bool
  | [], _ => true
  | _ :: _, [] => false
  | p :: ps, c :: cs => (p == '.' || p == c) && matchAt ps cs

/-- A simplified, total string search used by the Boolean `mask` below:
the pattern may match at any position, with `.` a wildcard and every
other character literal.  It agrees with Python `re.search` exactly on
patterns built from literal characters and `.` (such as the app's default
keywords); it is NOT the general model of
`pandas.Series.str.contains(k)` (src/app.py line 227), which compiles an
arbitrary keyword as a regular expression and can raise `re.error` — that
full fallible model is `reParse`/`reSearchP`/`maskE` below. -/
def reSearch : Str → Str → Bool
  | pat, [] => matchAt pat []
  | pat, c :: rest => matchAt pat (c :: rest) || reSearch pat rest

/-- Python `str.splitlines` for text whose line breaks are `\n`
(src/app.py line 45). -/
def splitlines (t : Str) : List Str := splitOnChar '\n' t

/-- Python `"\n".join(lines)` (src/app.py line 45). -/
def joinNL (lines : List Str) : Str := List.intercalate (chars "\n") lines

/-- Bytes 0x80–0xBF, the UTF-8 continuation bytes. -/
def isCont (b : Nat) : Bool := decide (128 ≤ b) && decide (b < 192)

/-- Python `bytes.decode("utf-8")` (strict): a structurally valid UTF-8
byte sequence decodes to its characters, anything else raises — modelled
as `none`.  Overlong encodings, surrogates and lead bytes above 0xF4 are
rejected, as CPython rejects them. -/
def decodeUtf8 : List Nat → Option Str
  | [] => some []
  | b :: rest =>
    if b < 128 then
      match decodeUtf8 rest with
      | some cs => some (Char.ofNat b :: cs)
      | none => none
    else if b < 194 then none
    else if b < 224 then
      match rest with
      | [] => none
      | b1 :: rest1 =>
        if isCont b1 then
          match decodeUtf8 rest1 with
          | some cs => some (Char.ofNat ((b - 192) * 64 + (b1 - 128)) :: cs)
          | none => none
        else none
    else if b < 240 then
      match rest with
      | b1 :: b2 :: rest2 =>
        if isCont b1 && isCont b2 && !(b == 224 && decide (b1 < 160))
            && !(b == 237 && decide (160 ≤ b1)) then
          match decodeUtf8 rest2 with
          | some cs =>
            some (Char.ofNat ((b - 224) * 4096 + (b1 - 128) * 64 + (b2 - 128)) :: cs)
          | none => none
        else none
      | _ => none
    else if b < 245 then
      match rest with
      | b1 :: b2 :: b3 :: rest3 =>
        if isCont b1 && isCont b2 && isCont b3 && !(b == 240 && decide (b1 < 144))
            && !(b == 244 && decide (143 < b1)) then
          match decodeUtf8 rest3 with
          | some cs =>
            some (Char.ofNat ((b - 240) * 262144 + (b1 - 128) * 4096
              + (b2 - 128) * 64 + (b3 - 128)) :: cs)
          | none => none
        else none
      | _ => none
    else none

/-- Python `bytes.decode("utf-8-sig")`: strip one UTF-8 byte-order mark if
present, then decode as UTF-8. -/
def decodeUtf8Sig : List Nat → Option Str
  | 239 :: 187 :: 191 :: rest => decodeUtf8 rest
  | bs => decodeUtf8 bs

/-- Python `bytes.decode("latin1")`: every byte maps to the code point of
its value, so the decode never raises. -/
def decodeLatin1 (bs : List Nat) : Option Str :=
  some (bs.map (fun b => Char.ofNat b))

/-- The decoding loop of `load_table` (src/app.py lines 34–40): try
`utf-8-sig`, `utf-8`, `latin1` in order and keep the first decode that does
not raise; `none` models the loop ending with `text` still `None`. -/
def tryDecode (bs : List Nat) : Option Str :=
  match decodeUtf8Sig bs with
  | some t => some t
  | none =>
    match decodeUtf8 bs with
    | some t => some t
    | none => decodeLatin1 bs

/-- Blank-line removal (src/app.py line 45): keep lines whose stripped text
is non-empty. -/
def removeBlankLines (lines : List Str) : List Str :=
  lines.filter (fun l => !(stripChars l).isEmpty)

/-- The fixed separator fallbacks of `load_table` (src/app.py line 59). -/
def sepFallbacks : List Char := [',', ';', '\t', '|']

/-- The fallback loop of `load_table` (src/app.py lines 59–63): try each
separator in order, return the first parse that does not raise.  The
pandas parse is abstracted as `tryParse`, the text already applied;
`none` models falling through to `return pd.DataFrame()`. -/
def trySeps {α : Type} (tryParse : Option Char → Except String α) : List Char → Option α
  | [] => none
  | s :: rest =>
    match tryParse (some s) with
    | Except.ok t => some t
    | Except.error _ => trySeps tryParse rest

/-- The parse section of `load_table` (src/app.py lines 54–65): the primary
attempt with the sniffed (or unset) separator, then the fallback loop, then
the empty table (`none`). -/
def parseWithFallback {α : Type} (tryParse : Option Char → Except String α)
    (sep : Option Char) : Option α :=
  match tryParse sep with
  | Except.ok t => some t
  | Except.error _ => trySeps tryParse sepFallbacks

/-- Modelled from the spec's words ("retry explicitly with each of comma,
semicolon, tab, pipe in that fixed order, returning the first successful
parse"): the first separator in that order whose parse succeeds, for
comparison with the code's fallback loop. -/
def firstSuccessfulParse {α : Type} (tryParse : Option Char → Except String α) : Option α :=
  (sepFallbacks.filterMap (fun s => (tryParse (some s)).toOption)).head?

/-- The text path of `load_table` after decoding (src/app.py lines 45–65):
strip blank lines, sniff a delimiter from the first 4096 characters of the
cleaned text (`sniff`, abstracting `csv.Sniffer`, with `none` for a failed
sniff), then parse with fallback.  `tryParse` abstracts
`pd.read_csv(io.StringIO(stripped), sep=·, engine="python")`. -/
def load_text {α : Type} (sniff : Str → Option Char)
    (tryParse : Str → Option Char → Except String α) (text : Str) : Option α :=
  let stripped := joinNL (removeBlankLines (splitlines text))
  parseWithFallback (tryParse stripped) (sniff (stripped.take 4096))

/-- The byte path of `load_table` for non-Excel inputs (src/app.py
lines 32–65): decode, then the text path; the `none` branch models the
`text is None` branch that reports a decode error and returns an empty
table. -/
def load_table_bytes {α : Type} (sniff : Str → Option Char)
    (tryParse : Str → Option Char → Except String α) (bs : List Nat) : Option α :=
  match tryDecode bs with
  | none => none
  | some text => load_text sniff tryParse text

/-- A normalized transaction row: parsed date, numeric amount, description
(`none` models a missing value in the description column). -/
structure Txn where
  date : Nat × Nat × Nat
  amount : ℚ
  description : Option Str
deriving DecidableEq

/-- The derived `year_month` value of a row (src/app.py line 148,
`df["date"].dt.to_period("M")`). -/
def year_month (t : Txn) : Nat × Nat := (t.date.1, t.date.2.1)

/-- The period filter (src/app.py line 168): rows of the chosen month. -/
def month_data (df : List Txn) (p : Nat × Nat) : List Txn :=
  df.filter (fun t => decide (year_month t = p))

/-- The expense filter (src/app.py line 171): rows with amount < 0. -/
def expenses (md : List Txn) : List Txn :=
  md.filter (fun t => decide (t.amount < 0))

/-- The positive spent magnitude of an expense row (src/app.py line 172). -/
def spent (t : Txn) : ℚ := -t.amount

/-- The net total (src/app.py line 122, `df["amount"].sum()`). -/
def total (df : List Txn) : ℚ := (df.map Txn.amount).sum

/-- The month's total spend (src/app.py line 180): the sum of spent
magnitudes, 0.0 for an empty expense set. -/
def total_spend (es : List Txn) : ℚ :=
  if es.isEmpty then 0 else (es.map spent).sum

/-- The overall progress (src/app.py line 181): `min(1.0, t / b)` when the
overall budget `b` is positive, else 0.0. -/
def progress (t b : ℚ) : ℚ := if b > 0 then min 1 (t / b) else 0

/-- A category's progress (src/app.py line 234): `min(1.0, c / limit)` when
the limit is positive, else 0.0. -/
def cat_progress (c limit : ℚ) : ℚ := if limit > 0 then min 1 (c / limit) else 0

/-- The keyword list of a rule (src/app.py line 219): split the keyword text
on commas, strip each token, drop empty tokens, lowercase. -/
def parse_keywords (s : Str) : List Str :=
  (((splitOnChar ',' s).map stripChars).filter (fun k => !k.isEmpty)).map lowerChars

/-- The lowercased description series (src/app.py line 224,
`expenses["description"].str.lower().fillna("")`): a missing description
becomes the empty string. -/
def desc_lower (t : Txn) : Str := (t.description.map lowerChars).getD []

/-- The match mask of a rule (src/app.py lines 225–227) in the simplified
total semantics: starting from `False`, OR in the keyword's search for
each keyword.  Faithful to the code whenever every keyword compiles as a
regex and uses only literal characters and `.` — true of the sample
scenario's keywords; the general fallible model of the same loop
(arbitrary keywords, `re.error` propagation) is `maskE` below. -/
def mask (ks : List Str) (t : Txn) : Bool :=
  ks.foldl (fun acc k => acc || reSearch k (desc_lower t)) false

/-- The matched rows of a rule (src/app.py line 229, `expenses[mask]`). -/
def matched (ks : List Str) (es : List Txn) : List Txn := es.filter (mask ks)

/-- A rule's spent total (src/app.py line 230): the sum of spent magnitudes
over the matched rows, 0.0 when none matched. -/
def cat_spent (m : List Txn) : ℚ :=
  if m.isEmpty then 0 else (m.map spent).sum

/-- A budget rule as edited in the rules table (src/app.py lines 190–194):
category label, comma-separated keyword text, monthly limit. -/
structure Rule where
  category : Str
  keywords : Str
  budget : ℚ
deriving DecidableEq

/-- What evaluating one rule displays (src/app.py lines 213–241): the
normalized category label, the rule's spent total, its progress, and the
matched rows. -/
structure RuleResult where
  label : Str
  spentTotal : ℚ
  progValue : ℚ
  rows : List Txn
deriving DecidableEq

/-- Evaluation of one rule against the month's expenses (src/app.py
lines 213–234): `none` models the `no keywords set` branch that skips
evaluation; otherwise the matched rows, their spent sum and the progress. -/
def evalRule (es : List Txn) (r : Rule) : Option RuleResult :=
  let cat := if (stripChars r.category).isEmpty then chars "(Unnamed)" else stripChars r.category
  let ks := parse_keywords r.keywords
  if ks.isEmpty then none
  else
    let m := matched ks es
    some ⟨cat, cat_spent m, cat_progress (cat_spent m) r.budget, m⟩

/-- The budgeting pass (src/app.py lines 148–241) as a pure function of the
normalized table, the selected period, the overall budget and the rule
list: the month's total spend, the overall progress, and the per-rule
results (the empty list models the `No expenses found for this month`
branch that skips the rule loop, and also an empty rule list). -/
def evalBudget (df : List Txn) (p : Nat × Nat) (overall_budget : ℚ)
    (rules : List Rule) : ℚ × ℚ × List (Option RuleResult) :=
  let es := expenses (month_data df p)
  let ts := total_spend es
  (ts, progress ts overall_budget, if es.isEmpty then [] else rules.map (evalRule es))

/-- The bundled sample dataset (src/app.py lines 78–88). -/
def sample_csv : String :=
  "date,amount,description\n2024-09-01,-85.20,Metro Groceries\n2024-09-02,-18.70,UBER Ride\n2024-09-03,2000.00,Payroll Deposit\n2024-09-05,-120.00,Costco Wholesale\n2024-09-09,-55.99,Cineplex Movies\n2024-09-10,-15.99,Netflix Subscription\n2024-09-12,-60.00,Shell Gas Station\n2024-09-16,1500.00,Freelance Income\n2024-09-19,-12.00,Spotify Premium\n"

/-- The value of a string of decimal digits (validity is checked where the
function is used). -/
def digitsVal (cs : Str) : Nat :=
  cs.foldl (fun a c => a * 10 + (c.toNat - 48)) 0

/-- An unsigned decimal literal as a rational: digits with an optional
fractional part. -/
def parseUnsigned (cs : Str) : Option ℚ :=
  match splitOnChar '.' cs with
  | [ip] =>
    if ip.all Char.isDigit && !ip.isEmpty then some (digitsVal ip : ℚ) else none
  | [ip, fp] =>
    if ip.all Char.isDigit && fp.all Char.isDigit && !(ip.isEmpty && fp.isEmpty) then
      some ((digitsVal ip : ℚ) + (digitsVal fp : ℚ) / (10 ^ fp.length))
    else none
  | _ => none

/-- Python `pd.to_numeric(·, errors="coerce")` (src/app.py line 113) on the
plain decimal literals the app's tables carry: an optional minus sign and
an unsigned decimal; anything else coerces to a missing value (`none`). -/
def parseAmount (cs : Str) : Option ℚ :=
  match cs with
  | '-' :: rest => (parseUnsigned rest).map (fun q => -q)
  | _ => parseUnsigned cs

/-- Python `pd.to_datetime(·, errors="coerce")` (src/app.py line 112) on the
ISO `YYYY-MM-DD` dates the app's tables carry: year, month, day; anything
else coerces to a missing value (`none`). -/
def parseDate (cs : Str) : Option (Nat × Nat × Nat) :=
  match splitOnChar '-' cs with
  | [y, m, d] =>
    if y.all Char.isDigit && m.all Char.isDigit && d.all Char.isDigit
        && y.length == 4 && m.length == 2 && d.length == 2 then
      if 1 ≤ digitsVal m && digitsVal m ≤ 12 && 1 ≤ digitsVal d && digitsVal d ≤ 31 then
        some (digitsVal y, digitsVal m, digitsVal d)
      else none
    else none
  | _ => none

/-- Python `pd.read_csv` (src/app.py line 89) on the sample text: split into
lines, skip blank lines (pandas' default `skip_blank_lines`), split each
line on the comma; the sample has no quoting or embedded commas. -/
def parseCsvRows (s : Str) : List (List Str) :=
  ((splitlines s).filter (fun l => !l.isEmpty)).map (splitOnChar ',')

/-- Header normalization (src/app.py line 101): strip and lowercase each
column name. -/
def normalizeHeader (h : List Str) : List Str := h.map (fun c => lowerChars (stripChars c))

/-- The required-column check (src/app.py lines 105–106). -/
def requiredPresent (h : List Str) : Bool :=
  [chars "date", chars "amount", chars "description"].all (fun c => h.contains c)

/-- Type coercion and row dropping (src/app.py lines 112–114) for a row of
the three columns in `date, amount, description` order: a row whose date or
amount fails to coerce is dropped. -/
def normalizeRow : List Str → Option Txn
  | [d, a, de] =>
    match parseDate d, parseAmount a with
    | some dd, some aa => some ⟨dd, aa, some de⟩
    | _, _ => none
  | _ => none

/-- The normalized sample table (src/app.py lines 89 and 101–114): parse the
sample text, drop the header row, coerce and drop failing rows. -/
def sampleTable : List Txn :=
  ((parseCsvRows (chars sample_csv)).drop 1).filterMap normalizeRow

/-- A pandas data frame seen at the level the frame claims need: the ordered
list of its columns, each a name paired with its (otherwise opaque)
contents. -/
abbrev Frame (α : Type) : Type := List (String × α)

/-- Pandas column assignment `df[name] = v` (src/app.py line 148): replace
the column in place when the name exists, else append the new column. -/
def setColumn {α : Type} (df : Frame α) (name : String) (v : α) : Frame α :=
  if (df.map Prod.fst).contains name then
    df.map (fun c => if c.1 = name then (c.1, v) else c)
  else df ++ [(name, v)]

/-- Pandas `df.drop(columns=[name], errors="ignore")` (src/app.py
line 244): remove the column when present. -/
def dropColumn {α : Type} (df : Frame α) (name : String) : Frame α :=
  df.filter (fun c => !(c.1 == name))

/-- The table mutations of the budgeting section (src/app.py lines 148 and
244): add the derived `year_month` column before evaluation (`ym` stands
for the computed `df["date"].dt.to_period("M")` contents), drop it
afterwards.  Everything in between reads the frame or filtered copies of
it. -/
def budget_df_step {α : Type} (ym : α) (df : Frame α) : Frame α :=
  dropColumn (setColumn df "year_month" ym) "year_month"

/-- `InsertedBlanks xs ys`: `ys` is `xs` with blank (empty or
whitespace-only) lines inserted at arbitrary positions. -/
inductive InsertedBlanks : List Str → List Str → Prop where
  | nil : InsertedBlanks [] []
  | keep (l : Str) (xs ys : List Str) : InsertedBlanks xs ys → InsertedBlanks (l :: xs) (l :: ys)
  | blank (b : Str) (xs ys : List Str) : stripChars b = [] → InsertedBlanks xs ys →
      InsertedBlanks xs (b :: ys)

/-- The characters Python's `re` module treats as special (metacharacters):
a keyword containing none of these is matched purely literally. -/
def reMetachars : Str :=
  ['.', '^', '$', '*', '+', '?', '{', '}', '[', ']', '\\', '|', '(', ')']

/-- Regular-expression patterns, as compiled from a keyword string:
the constructs reachable through the rule editor's keyword text that this
development models — literal characters, the `.` wildcard, character
classes, concatenation, alternation, and the `*`/`+`/`?` quantifiers
(a `+` compiles to `seq a (star a)`, a `?` to `alt a eps`). -/
inductive RePat where
  | fail
  | eps
  | lit (c : Char)
  | dot
  | cls (neg : Bool) (items : List (Char × Char))
  | seq (a b : RePat)
  | alt (a b : RePat)
  | star (a : RePat)
deriving DecidableEq

/-- The pattern that matches a string of literal characters and nothing
else: what a metacharacter-free keyword compiles to. -/
def litsPat (cs : Str) : RePat :=
  cs.foldr (fun c p => RePat.seq (RePat.lit c) p) RePat.eps

/-- Whether a pattern accepts the empty string. -/
def nullable : RePat → Bool
  | .fail => false
  | .eps => true
  | .lit _ => false
  | .dot => false
  | .cls _ _ => false
  | .seq a b => nullable a && nullable b
  | .alt a b => nullable a || nullable b
  | .star _ => true

/-- Whether a character falls in one of a character class's ranges (a
single character is the range from itself to itself). -/
def clsMem (items : List (Char × Char)) (c : Char) : Bool :=
  items.any (fun r => r.1 ≤ c && c ≤ r.2)

/-- The Brzozowski derivative of a pattern by one character: the pattern
matching exactly the remainders of its matches that start with `c`.  As in
Python, `.` matches every character except the newline. -/
def derivP : RePat → Char → RePat
  | .fail, _ => .fail
  | .eps, _ => .fail
  | .lit c, x => if c == x then .eps else .fail
  | .dot, x => if x == '\n' then .fail else .eps
  | .cls neg items, x => if clsMem items x != neg then .eps else .fail
  | .seq a b, x =>
    if nullable a then .alt (.seq (derivP a x) b) (derivP b x) else .seq (derivP a x) b
  | .alt a b, x => .alt (derivP a x) (derivP b x)
  | .star a, x => .seq (derivP a x) (.star a)

/-- Whether the pattern matches some prefix of the text (including the
empty prefix when the pattern is nullable). -/
def matchHere (p : RePat) : Str → Bool
  | [] => nullable p
  | c :: rest => nullable p || matchHere (derivP p c) rest

/-- Python `re.search(p, text)` as a Boolean: the pattern matches starting
at some position of the text. -/
def reSearchP (p : RePat) : Str → Bool
  | [] => matchHere p []
  | c :: rest => matchHere p (c :: rest) || reSearchP p rest

/-- The optional lazy `?` suffix after a quantifier (`a*?`): consumed and
ignored, since laziness does not change which strings match. -/
def dropLazy : Str → Str
  | '?' :: rest => rest
  | s => s

/-- One trailing `*`, `+` or `?` quantifier applied to a parsed atom, with
an optional lazy `?` suffix (laziness does not change which strings
match); a second quantifier is left in the input, where the atom parser
rejects it — as Python rejects `a**` (multiple repeat). -/
def applyQuant (p : RePat) (s : Str) : RePat × Str :=
  match s with
  | [] => (p, [])
  | c :: rest =>
    if c == '*' then (RePat.star p, dropLazy rest)
    else if c == '+' then (RePat.seq p (RePat.star p), dropLazy rest)
    else if c == '?' then (RePat.alt p RePat.eps, dropLazy rest)
    else (p, c :: rest)

/-- The items of a character class, read until the closing `]`: plain
characters, ranges `c-d` (rejected when reversed, as Python rejects a bad
character range), a trailing `-` literal; an unterminated class is an
error.  Escapes inside classes and a leading `]` are outside the modelled
fragment. -/
def parseClsItems : Str → Option (List (Char × Char) × Str)
  | [] => none
  | ']' :: rest => some ([], rest)
  | '\\' :: _ => none
  | c :: '-' :: d :: rest =>
    if d == ']' then some ([(c, c), ('-', '-')], rest)
    else if d == '\\' then none
    else if c ≤ d then
      match parseClsItems rest with
      | some (items, r) => some ((c, d) :: items, r)
      | none => none
    else none
  | c :: rest =>
    match parseClsItems rest with
    | some (items, r) => some ((c, c) :: items, r)
    | none => none

/-- The three levels of the pattern grammar: an alternation of
concatenations of quantified atoms. -/
inductive PMode where
  | alt
  | cat
  | atom

/-- A fuel-indexed recursive-descent pattern compiler for the modelled
fragment of Python `re` syntax.  `none` stands for `re.compile` raising
`re.error` — a dangling quantifier, an unbalanced `(` or `[`, a trailing
backslash, a bad character range — and also covers the valid constructs
outside the modelled fragment (anchors `^` `$`, `{` repetition, extension
groups `(?`, alphanumeric escapes such as `\d`, classes with a leading
`]` or inner escapes): theorems only ever assert an error at patterns
where Python genuinely raises, and positive results only under the
hypothesis that the keyword compiles in this fragment. -/
def reParseF : Nat → PMode → Str → Option (RePat × Str)
  | 0, _, _ => none
  | n + 1, PMode.alt, s =>
    match reParseF n PMode.cat s with
    | none => none
    | some (p, rest) =>
      match rest with
      | '|' :: rest2 =>
        match reParseF n PMode.alt rest2 with
        | none => none
        | some (q, rest3) => some (RePat.alt p q, rest3)
      | _ => some (p, rest)
  | n + 1, PMode.cat, s =>
    match s with
    | [] => some (RePat.eps, [])
    | c :: cs =>
      if c == ')' || c == '|' then some (RePat.eps, c :: cs)
      else
        match reParseF n PMode.atom (c :: cs) with
        | none => none
        | some (p, rest) =>
          match applyQuant p rest with
          | (pq, rest2) =>
            match reParseF n PMode.cat rest2 with
            | none => none
            | some (q, rest3) => some (RePat.seq pq q, rest3)
  | n + 1, PMode.atom, s =>
    match s with
    | [] => none
    | c :: rest =>
      if c == '(' then
        match rest with
        | '?' :: _ => none
        | _ =>
          match reParseF n PMode.alt rest with
          | none => none
          | some (p, rest2) =>
            match rest2 with
            | ')' :: rest3 => some (p, rest3)
            | _ => none
      else if c == '[' then
        match rest with
        | '^' :: ']' :: _ => none
        | '^' :: rest1 =>
          match parseClsItems rest1 with
          | none => none
          | some (items, rest2) => some (RePat.cls true items, rest2)
        | ']' :: _ => none
        | _ =>
          match parseClsItems rest with
          | none => none
          | some (items, rest2) => some (RePat.cls false items, rest2)
      else if c == '\\' then
        match rest with
        | [] => none
        | e :: rest1 => if e.isAlphanum then none else some (RePat.lit e, rest1)
      else if c == '.' then some (RePat.dot, rest)
      else if c == '^' || c == '$' || c == '{' || c == '}' || c == '*' || c == '+'
          || c == '?' || c == ')' || c == '|' then none
      else some (RePat.lit c, rest)

/-- Python `re.compile(k)` over the modelled fragment: parse the whole
keyword as an alternation; leftover input (an unbalanced `)`) is an
error.  The fuel is generous: the grammar consumes at least one character
every four calls. -/
def reParse (k : Str) : Option RePat :=
  match reParseF (4 * k.length + 8) PMode.alt k with
  | some (p, []) => some p
  | _ => none

/-- One evaluation of `desc_lower.str.contains(k, na=False)` (src/app.py
line 227) in the full fallible model: compile the keyword as a regex —
`re.error` propagates out of the loop as an exception — and search the
lowercased description. -/
def strContainsE (pat s : Str) : Except String Bool :=
  match reParse pat with
  | some p => Except.ok (reSearchP p s)
  | none => Except.error "re.error"

/-- The mask-building loop of src/app.py lines 225–227 in the full
fallible model, from a given accumulator: OR in each keyword's
`contains`; the loop raises at the first keyword that fails to
compile. -/
def maskLoop (t : Txn) : List Str → Bool → Except String Bool
  | [], acc => Except.ok acc
  | k :: ks, acc =>
    match strContainsE k (desc_lower t) with
    | Except.error e => Except.error e
    | Except.ok b => maskLoop t ks (acc || b)

/-- A row's mask value (src/app.py lines 225–227) in the full fallible
model: the mask loop started from `False`. -/
def maskE (ks : List Str) (t : Txn) : Except String Bool :=
  maskLoop t ks false

/-- Compiling every keyword of a rule, in order: the patterns, or the
first `re.error`. -/
def compileAll : List Str → Option (List RePat)
  | [] => some []
  | k :: ks =>
    match reParse k with
    | none => none
    | some p =>
      match compileAll ks with
      | none => none
      | some ps => some (p :: ps)

/-- Whether some compiled keyword pattern matches a row's lowercased
description: the row's mask value once every keyword has compiled. -/
def anyMatch (ps : List RePat) (t : Txn) : Bool :=
  ps.any (fun p => reSearchP p (desc_lower t))

/-- The matched rows of a rule (src/app.py line 229, `expenses[mask]`) in
the full fallible model: if every keyword compiles, the rows whose
description matches some keyword; otherwise the `re.error` raised while
building the mask. -/
def matchedE (ks : List Str) (es : List Txn) : Except String (List Txn) :=
  match compileAll ks with
  | some ps => Except.ok (es.filter (anyMatch ps))
  | none => Except.error "re.error"

deriving instance DecidableEq for Except

/-- The fallback loop returns the first separator's success, in list
order. -/
theorem trySeps_eq_firstOk {α : Type} (tryParse : Option Char → Except String α)
    (l : List Char) :
    trySeps tryParse l = (l.filterMap (fun s => (tryParse (some s)).toOption)).head? := by
  induction l with
  | nil => rfl
  | cons s rest ih =>
    cases h : tryParse (some s) <;> simp [trySeps, h, Except.toOption, ih]

/-- Inserting blank lines does not change the blank-line-stripped line
list. -/
theorem removeBlankLines_inserted (xs ys : List Str) (h : InsertedBlanks xs ys) :
    removeBlankLines ys = removeBlankLines xs := by
  induction h with
  | nil => rfl
  | keep l xs ys _ ih =>
    simp only [removeBlankLines, List.filter_cons] at *
    cases hb : (!(stripChars l).isEmpty) <;> simp [hb, ih]
  | blank b xs ys hb _ ih =>
    simp only [removeBlankLines, List.filter_cons, hb, List.isEmpty_nil] at *
    simpa using ih

/-- Sums of a nonnegative weight over a filter grow when the filter
grows. -/
theorem sum_map_filter_mono (f : Txn → ℚ) (p q : Txn → Bool) (l : List Txn)
    (hf : ∀ x ∈ l, 0 ≤ f x) (hpq : ∀ x, p x = true → q x = true) :
    ((l.filter p).map f).sum ≤ ((l.filter q).map f).sum := by
  induction l with
  | nil => simp
  | cons x xs ih =>
    have hx := hf x (List.mem_cons_self x xs)
    have ih' := ih (fun y hy => hf y (List.mem_cons_of_mem _ hy))
    cases hp : p x with
    | true =>
      have hq := hpq x hp
      simp only [List.filter_cons, hp, hq, if_true, List.map_cons, List.sum_cons]
      linarith
    | false =>
      cases hq : q x with
      | true =>
        simp only [List.filter_cons, hp, hq, if_false, if_true, List.map_cons, List.sum_cons]
        simp only [Bool.false_eq_true, if_false]
        linarith
      | false =>
        simp only [List.filter_cons, hp, hq]
        simp only [Bool.false_eq_true, if_false]
        exact ih'

/-- `cat_spent` is the plain sum: the empty guard changes nothing because
an empty sum is zero. -/
theorem cat_spent_eq_sum (m : List Txn) : cat_spent m = (m.map spent).sum := by
  cases m <;> simp [cat_spent]

/-- Every expense row has a nonnegative spent magnitude. -/
theorem spent_nonneg_of_mem_expenses (md : List Txn) (t : Txn) (h : t ∈ expenses md) :
    0 ≤ spent t := by
  have := (List.mem_filter.mp h).2
  have hlt : t.amount < 0 := by exact_mod_cast of_decide_eq_true this
  simp [spent]
  linarith

/-- The overall progress of a zero total is zero for every budget. -/
theorem progress_zero_left (b : ℚ) : progress 0 b = 0 := by
  unfold progress
  by_cases hb : b > 0
  · simp [hb, zero_div]
  · simp [hb]

set_option maxRecDepth 100000 in
unseal Rat.add Rat.mul Rat.inv Rat.sub in
/-- C1 (amended): loading the bundled sample dataset yields exactly 9
transaction records, and the net total computed as the sum of the amount
column equals 3132.12 (the spec's own formula, 2000.00 + 1500.00 minus the
seven expense magnitudes 85.20 + 18.70 + 120.00 + 55.99 + 15.99 + 60.00 +
12.00 = 367.88, gives 3132.12, not the 4147.95 the spec states). -/
theorem C1_sample_roundtrip :
    sampleTable.length = 9 ∧ total sampleTable = 313212 / 100 := by decide

set_option maxRecDepth 100000 in
unseal Rat.add Rat.mul Rat.inv Rat.sub in
/-- C1 counterexample: on the sample dataset of the code the claimed net
total 4147.95 is wrong (the record count 9 is right; the sum of the amount
column is 3132.12). -/
theorem C1_total_not_414795 :
    ¬ (sampleTable.length = 9 ∧ total sampleTable = 414795 / 100) := by decide

set_option maxRecDepth 100000 in
unseal Rat.add Rat.mul Rat.inv Rat.sub in
/-- C6: on the sample data with period 2024-09, the Transport rule
(keywords `uber,lyft,shell,esso,petro,gas`) matches exactly the two
transactions `UBER Ride` (18.70) and `Shell Gas Station` (60.00), giving
`cat_spent = 78.70`. -/
theorem C6_transport_scenario :
    (matched (parse_keywords (chars "uber,lyft,shell,esso,petro,gas"))
        (expenses (month_data sampleTable (2024, 9)))).map Txn.description
      = [some (chars "UBER Ride"), some (chars "Shell Gas Station")]
    ∧ (matched (parse_keywords (chars "uber,lyft,shell,esso,petro,gas"))
        (expenses (month_data sampleTable (2024, 9)))).map spent = [187 / 10, 60]
    ∧ cat_spent (matched (parse_keywords (chars "uber,lyft,shell,esso,petro,gas"))
        (expenses (month_data sampleTable (2024, 9)))) = 787 / 10 := by decide

/-- C3: for every text input, if the parse with the sniffed (or unset)
delimiter raises, the loader retries with comma, semicolon, tab, pipe in
that fixed order and returns the first successful parse; if every attempt
fails it returns the empty table (`none`) rather than raising — the result
is a plain value, never an exception. -/
theorem C3_fallback_chain {α : Type} (tryParse : Option Char → Except String α)
    (sep : Option Char) (e : String) (h : tryParse sep = Except.error e) :
    parseWithFallback tryParse sep = firstSuccessfulParse tryParse
    ∧ ((∀ s ∈ sepFallbacks, (tryParse (some s)).toOption = none) →
        parseWithFallback tryParse sep = none) := by
  constructor
  · simp [parseWithFallback, h, firstSuccessfulParse, trySeps_eq_firstOk]
  · intro hall
    simp [parseWithFallback, h, trySeps_eq_firstOk, List.filterMap_eq_nil_iff.mpr hall]

/-- C3 witness: a concrete parser that fails on the sniffed separator and
on comma but succeeds on semicolon; the chain returns the semicolon parse,
the first success in the fixed order. -/
theorem C3_fallback_chain_witness :
    parseWithFallback (fun s => if s = some ';' then Except.ok 7 else Except.error "fail") none
      = firstSuccessfulParse (fun s => if s = some ';' then Except.ok 7 else Except.error "fail")
    ∧ ((∀ s ∈ sepFallbacks,
          ((fun s => if s = some ';' then Except.ok 7 else Except.error "fail") (some s)
            |>.toOption) = none) →
        parseWithFallback (fun s => if s = some ';' then Except.ok 7 else Except.error "fail") none
          = none) :=
  C3_fallback_chain (fun s => if s = some ';' then Except.ok 7 else Except.error "fail")
    none "fail" rfl

/-- C5: a zero overall budget yields overall progress 0.0, and a zero or
negative per-rule limit yields rule progress 0.0; both are plain values,
not errors. -/
theorem C5_zero_division_safety (t c limit : ℚ) (h : limit ≤ 0) :
    progress t 0 = 0 ∧ cat_progress c limit = 0 := by
  constructor
  · simp [progress]
  · have : ¬ limit > 0 := not_lt.mpr h
    simp [cat_progress, this]

/-- C5 witness: progress of a 500.00 total against a zero overall budget is
0.0, and a rule's progress against a zero limit is 0.0. -/
theorem C5_zero_division_safety_witness :
    progress 500 0 = 0 ∧ cat_progress 300 0 = 0 :=
  C5_zero_division_safety 500 300 0 le_rfl

/-- C7: inserting empty or whitespace-only lines at any positions into a
text leaves the loaded table unchanged for every sniffer and parser,
because blank lines are dropped before delimiter sniffing and parsing. -/
theorem C7_blank_line_idempotence {α : Type} (sniff : Str → Option Char)
    (tryParse : Str → Option Char → Except String α) (t1 t2 : Str)
    (h : InsertedBlanks (splitlines t1) (splitlines t2)) :
    load_text sniff tryParse t2 = load_text sniff tryParse t1 := by
  simp only [load_text, removeBlankLines_inserted (splitlines t1) (splitlines t2) h]

/-- C7 witness: inserting an empty line and a whitespace-only line into a
two-line CSV text gives the same loaded result, for a concrete sniffer and
a parser that returns the cleaned text's length. -/
theorem C7_blank_line_idempotence_witness :
    load_text (fun _ => none) (fun s _ => Except.ok s.length) (chars "a,b\n\n  \n1,2")
      = load_text (fun _ => none) (fun s _ => Except.ok s.length) (chars "a,b\n1,2") :=
  C7_blank_line_idempotence (fun _ => none) (fun s _ => Except.ok s.length)
    (chars "a,b\n1,2") (chars "a,b\n\n  \n1,2")
    (InsertedBlanks.keep _ _ _ (InsertedBlanks.blank _ _ _ rfl
      (InsertedBlanks.blank _ _ _ rfl (InsertedBlanks.keep _ _ _ InsertedBlanks.nil))))

/-- C8: the budget evaluator never raises for empty inputs — it is a total
function, and an empty table, an empty selected-period expense set, or an
empty rule list all degrade to zero-valued results: total spend 0.0,
overall progress 0.0, no per-rule output, and every rule's spent total
over an empty expense set is 0.0. -/
theorem C8_empty_inputs_degrade (df : List Txn) (p : Nat × Nat) (b : ℚ)
    (rules : List Rule) (ks : List Str) :
    evalBudget [] p b rules = (0, 0, [])
    ∧ (evalBudget df p b []).2.2 = []
    ∧ (month_data df p = [] → evalBudget df p b rules = (0, 0, []))
    ∧ cat_spent (matched ks []) = 0 := by
  refine ⟨?_, ?_, ?_, ?_⟩
  · simp [evalBudget, month_data, expenses, total_spend, progress_zero_left]
  · simp only [evalBudget]
    cases (expenses (month_data df p)).isEmpty <;> simp
  · intro h
    simp [evalBudget, h, expenses, total_spend, progress_zero_left]
  · simp [matched, cat_spent]

/-- C9: for every byte input routed to text parsing, the decoding loop
always succeeds — the Latin-1 attempt accepts every byte sequence — so the
decode-failure branch (empty table with a decode error) is unreachable,
and loading always proceeds to the text pipeline on some decoded text. -/
theorem C9_decode_always_succeeds {α : Type} (sniff : Str → Option Char)
    (tryParse : Str → Option Char → Except String α) (bs : List Nat) :
    (tryDecode bs).isSome = true
    ∧ ∃ t, tryDecode bs = some t
        ∧ load_table_bytes sniff tryParse bs = load_text sniff tryParse t := by
  have hsome : ∃ t, tryDecode bs = some t := by
    unfold tryDecode
    cases h1 : decodeUtf8Sig bs with
    | some t => exact ⟨t, rfl⟩
    | none =>
      cases h2 : decodeUtf8 bs with
      | some t => exact ⟨t, rfl⟩
      | none => exact ⟨bs.map (fun b => Char.ofNat b), rfl⟩
  obtain ⟨t, ht⟩ := hsome
  refine ⟨by simp [ht], t, ht, ?_⟩
  simp [load_table_bytes, ht]

/-- C10 (amended): provided the normalized table has no column named
`year_month`, the budgeting pass leaves the frame unchanged — the derived
`year_month` helper column is appended before evaluation and dropped
afterwards, the filters in between operate on copies, and every original
column survives. -/
theorem C10_frame_preserved {α : Type} (ym : α) (df : Frame α)
    (h : ∀ c ∈ df, c.1 ≠ "year_month") : budget_df_step ym df = df := by
  have hnc : (df.map Prod.fst).contains "year_month" = false := by
    rw [List.contains_eq_any_beq]
    rw [List.any_eq_false]
    intro x hx
    rw [List.mem_map] at hx
    obtain ⟨c, hc, rfl⟩ := hx
    simpa [beq_iff_eq] using (h c hc).symm
  unfold budget_df_step setColumn dropColumn
  rw [hnc]
  simp only [Bool.false_eq_true, if_false, List.filter_append]
  rw [List.filter_cons]
  simp only [beq_self_eq_true, Bool.not_true, List.filter_nil, Bool.false_eq_true, if_false]
  rw [List.append_nil]
  apply List.filter_eq_self.mpr
  intro c hc
  simpa [beq_iff_eq] using h c hc

/-- C10 witness: a frame with the three canonical columns and no
pre-existing `year_month` column comes back unchanged from the budgeting
pass. -/
theorem C10_frame_preserved_witness :
    budget_df_step 7 [("date", 1), ("amount", 2), ("description", 3)]
      = [("date", 1), ("amount", 2), ("description", 3)] :=
  C10_frame_preserved 7 [("date", 1), ("amount", 2), ("description", 3)] (by decide)

/-- C10 counterexample: a table that already carries a column named
`year_month` (the loader preserves extra columns) does not come back
unchanged — the budgeting pass overwrites it with the derived periods and
then drops it, so the original column is lost. -/
theorem C10_preexisting_column_lost :
    budget_df_step 7 [("date", 1), ("amount", 2), ("description", 3), ("year_month", 4)]
      ≠ [("date", 1), ("amount", 2), ("description", 3), ("year_month", 4)] := by decide

/-- The never-matching pattern matches no text. -/
theorem matchHere_fail (s : Str) : matchHere RePat.fail s = false := by
  induction s with
  | nil => rfl
  | cons c rest ih => simp [matchHere, nullable, derivP, ih]

/-- Prefix matching distributes over alternation. -/
theorem matchHere_alt (p q : RePat) (s : Str) :
    matchHere (RePat.alt p q) s = (matchHere p s || matchHere q s) := by
  induction s generalizing p q with
  | nil => simp [matchHere, nullable]
  | cons c rest ih =>
    simp only [matchHere, nullable, derivP, ih]
    cases nullable p <;> cases nullable q <;>
      cases matchHere (derivP p c) rest <;> cases matchHere (derivP q c) rest <;> simp

/-- A sequence starting with the never-matching pattern matches no text. -/
theorem matchHere_seq_fail (q : RePat) (s : Str) :
    matchHere (RePat.seq RePat.fail q) s = false := by
  induction s with
  | nil => simp [matchHere, nullable]
  | cons c rest ih => simp [matchHere, nullable, derivP, ih]

/-- A leading empty pattern in a sequence changes nothing. -/
theorem matchHere_seq_eps (q : RePat) (s : Str) :
    matchHere (RePat.seq RePat.eps q) s = matchHere q s := by
  induction s generalizing q with
  | nil => simp [matchHere, nullable]
  | cons c rest ih =>
    simp [matchHere, nullable, derivP, matchHere_alt, matchHere_seq_fail]

/-- A pattern of literal characters prefix-matches exactly when the text
starts with those characters. -/
theorem matchHere_litsPat (cs : Str) : ∀ s : Str,
    matchHere (litsPat cs) s = startsWithChars cs s := by
  induction cs with
  | nil => intro s; cases s <;> simp [litsPat, matchHere, nullable, startsWithChars]
  | cons c cs' ih =>
    intro s
    cases s with
    | nil => simp [litsPat, matchHere, nullable, startsWithChars]
    | cons x rest =>
      show matchHere (RePat.seq (RePat.lit c) (litsPat cs')) (x :: rest) = _
      simp only [matchHere, nullable, derivP, Bool.false_and, Bool.false_or, if_false,
        Bool.false_eq_true, startsWithChars]
      cases h : c == x with
      | true => simp [h, matchHere_seq_eps, ih]
      | false => simp [h, matchHere_seq_fail]

/-- A pattern of literal characters search-matches exactly when the text
contains those characters as a substring. -/
theorem reSearchP_litsPat (cs : Str) : ∀ s : Str,
    reSearchP (litsPat cs) s = containsChars s cs := by
  intro s
  induction s with
  | nil =>
    show matchHere (litsPat cs) [] = containsChars [] cs
    cases cs <;> simp [matchHere_litsPat, startsWithChars, containsChars]
  | cons c rest ih =>
    simp [reSearchP, matchHere_litsPat, containsChars, ih]

/-- A quantifier only applies when the next character is `*`, `+` or `?`;
after a metacharacter-free character (or at the end) the atom passes
through. -/
theorem applyQuant_of_no_quant (p : RePat) (s : Str)
    (h : ∀ c ∈ s.head?, c ∉ reMetachars) : applyQuant p s = (p, s) := by
  cases s with
  | nil => rfl
  | cons c rest =>
    have hc : c ∉ reMetachars := h c (by simp)
    have h1 : (c == '*') = false := by
      simp [beq_eq_false_iff_ne]; intro he; exact hc (by simp [reMetachars, he])
    have h2 : (c == '+') = false := by
      simp [beq_eq_false_iff_ne]; intro he; exact hc (by simp [reMetachars, he])
    have h3 : (c == '?') = false := by
      simp [beq_eq_false_iff_ne]; intro he; exact hc (by simp [reMetachars, he])
    simp [applyQuant, h1, h2, h3]

/-- One unfolding step of the concatenation parser on a non-empty input. -/
theorem reParseF_cat_step_cons (n : Nat) (c : Char) (cs : Str) :
    reParseF (n + 1) PMode.cat (c :: cs)
      = (if c == ')' || c == '|' then some (RePat.eps, c :: cs)
         else
           match reParseF n PMode.atom (c :: cs) with
           | none => none
           | some (p, rest) =>
             match applyQuant p rest with
             | (pq, rest2) =>
               match reParseF n PMode.cat rest2 with
               | none => none
               | some (q, rest3) => some (RePat.seq pq q, rest3)) := rfl

/-- One unfolding step of the alternation parser. -/
theorem reParseF_alt_step (n : Nat) (s : Str) :
    reParseF (n + 1) PMode.alt s
      = (match reParseF n PMode.cat s with
         | none => none
         | some (p, rest) =>
           match rest with
           | '|' :: rest2 =>
             match reParseF n PMode.alt rest2 with
             | none => none
             | some (q, rest3) => some (RePat.alt p q, rest3)
           | _ => some (p, rest)) := rfl

/-- On a metacharacter-free input the concatenation parser consumes the
whole input as a sequence of literals, for any sufficient fuel. -/
theorem reParseF_cat_lits (cs : Str) (h : ∀ c ∈ cs, c ∉ reMetachars) :
    ∀ n, 2 * cs.length + 1 ≤ n → reParseF n PMode.cat cs = some (litsPat cs, []) := by
  induction cs with
  | nil =>
    intro n hn
    obtain ⟨m, rfl⟩ : ∃ m, n = m + 1 := ⟨n - 1, by omega⟩
    rfl
  | cons c cs' ih =>
    intro n hn
    obtain ⟨m2, rfl⟩ : ∃ m2, n = m2 + 2 := ⟨n - 2, by simp at hn; omega⟩
    have hc : c ∉ reMetachars := h c (by simp)
    have hne : ∀ x : Char, x ∈ reMetachars → (c == x) = false := by
      intro x hx
      simp [beq_eq_false_iff_ne]
      intro he
      exact hc (he ▸ hx)
    have hatom : reParseF (m2 + 1) PMode.atom (c :: cs') = some (RePat.lit c, cs') := by
      simp [reParseF, hne '(' (by simp [reMetachars]), hne '[' (by simp [reMetachars]),
        hne '\\' (by simp [reMetachars]), hne '.' (by simp [reMetachars]),
        hne '^' (by simp [reMetachars]), hne '$' (by simp [reMetachars]),
        hne '{' (by simp [reMetachars]), hne '}' (by simp [reMetachars]),
        hne '*' (by simp [reMetachars]), hne '+' (by simp [reMetachars]),
        hne '?' (by simp [reMetachars]), hne ')' (by simp [reMetachars]),
        hne '|' (by simp [reMetachars])]
    have hquant : applyQuant (RePat.lit c) cs' = (RePat.lit c, cs') := by
      apply applyQuant_of_no_quant
      intro x hx
      cases cs' with
      | nil => simp at hx
      | cons d rest => simp at hx; exact hx ▸ h d (by simp)
    have hcat : reParseF (m2 + 1) PMode.cat cs' = some (litsPat cs', []) := by
      apply ih (fun x hx => h x (List.mem_cons_of_mem _ hx))
      simp at hn; omega
    have hcond : (c == ')' || c == '|') = false := by
      simp [hne ')' (by simp [reMetachars]), hne '|' (by simp [reMetachars])]
    rw [show m2 + 2 = (m2 + 1) + 1 from rfl, reParseF_cat_step_cons (m2 + 1) c cs']
    rw [hcond, hatom]
    simp only [Bool.false_eq_true, if_false, hquant, hcat, litsPat, List.foldr]

/-- A metacharacter-free keyword compiles to its sequence of literal
characters. -/
theorem reParse_lits (k : Str) (h : ∀ c ∈ k, c ∉ reMetachars) :
    reParse k = some (litsPat k) := by
  have hcat := reParseF_cat_lits k h (4 * k.length + 7) (by omega)
  unfold reParse
  rw [show 4 * k.length + 8 = (4 * k.length + 7) + 1 from rfl]
  rw [reParseF_alt_step (4 * k.length + 7) k, hcat]

/-- The mask-building loop, from any accumulator: it raises exactly when
some keyword fails to compile, and otherwise ORs the per-keyword searches
onto the accumulator. -/
theorem maskLoop_eq_compileAll (t : Txn) (ks : List Str) (b : Bool) :
    maskLoop t ks b
      = (match compileAll ks with
         | some ps => Except.ok (b || anyMatch ps t)
         | none => Except.error "re.error") := by
  induction ks generalizing b with
  | nil => simp [maskLoop, compileAll, anyMatch]
  | cons k ks' ih =>
    cases hk : reParse k with
    | none => simp [maskLoop, compileAll, strContainsE, hk]
    | some p =>
      cases hks : compileAll ks' with
      | none => simp [maskLoop, compileAll, strContainsE, hk, hks, ih]
      | some ps =>
        simp [maskLoop, compileAll, strContainsE, hk, hks, ih, anyMatch, Bool.or_assoc]

/-- The mask of a rule whose keywords all compile: true exactly on rows
whose lowercased description matches some keyword pattern. -/
theorem maskE_of_compiled (ks : List Str) (t : Txn) (ps : List RePat)
    (hps : compileAll ks = some ps) :
    maskE ks t = Except.ok (anyMatch ps t) := by
  rw [maskE, maskLoop_eq_compileAll, hps]
  simp

/-- Compiling an appended keyword list appends the compiled patterns. -/
theorem compileAll_append (ks : List Str) (k : Str) (ps : List RePat) (p : RePat)
    (hks : compileAll ks = some ps) (hk : reParse k = some p) :
    compileAll (ks ++ [k]) = some (ps ++ [p]) := by
  induction ks generalizing ps with
  | nil =>
    simp [compileAll] at hks
    subst hks
    simp [compileAll, hk]
  | cons a as ih =>
    cases ha : reParse a with
    | none => simp [compileAll, ha] at hks
    | some q =>
      cases has : compileAll as with
      | none => simp [compileAll, ha, has] at hks
      | some qs =>
        simp [compileAll, ha, has] at hks
        subst hks
        simp [compileAll, ha, ih qs has]

/-- A row matched by some pattern of a list is matched by any extension of
that list. -/
theorem anyMatch_append (ps : List RePat) (p : RePat) (t : Txn) :
    anyMatch (ps ++ [p]) t = (anyMatch ps t || reSearchP p (desc_lower t)) := by
  simp [anyMatch, List.any_append]

/-- C2 (amended): for a rule all of whose keywords compile as regular
expressions, a transaction of the expense set matches exactly when its
lowercased description contains a match of at least one compiled keyword
pattern (`re.search`, the semantics of `pandas.Series.str.contains`,
which treats the keyword as a regex); for a keyword containing no regex
metacharacter (none of `. ^ $ * + ? { } [ ] \ | ( )`) the per-keyword
test is exactly literal substring containment; and a missing/null
description is treated as the empty string and never causes a match
failure or error. -/
theorem C2_match_iff_regex (ks : List Str) (t : Txn) (ps : List RePat)
    (hps : compileAll ks = some ps) :
    maskE ks t = Except.ok (anyMatch ps t)
    ∧ (maskE ks t = Except.ok true ↔ ∃ p ∈ ps, reSearchP p (desc_lower t) = true)
    ∧ (t.description = none → desc_lower t = [])
    ∧ (∀ k ∈ ks, (∀ c ∈ k, c ∉ reMetachars) →
        strContainsE k (desc_lower t) = Except.ok (containsChars (desc_lower t) k)) := by
  refine ⟨maskE_of_compiled ks t ps hps, ?_, ?_, ?_⟩
  · rw [maskE_of_compiled ks t ps hps]
    simp [anyMatch, List.any_eq_true]
  · intro h
    simp [desc_lower, h]
  · intro k _ hfree
    rw [strContainsE, reParse_lits k hfree]
    simp [reSearchP_litsPat]

/-- C2 witness: the keyword `uber` compiles to its literal pattern, and on
the expense `UBER Ride` the mask, its characterization, the
missing-description case and the substring coincidence all hold. -/
theorem C2_match_iff_regex_witness :
    maskE [chars "uber"] ⟨(2024, 9, 2), -5, some (chars "UBER Ride")⟩
      = Except.ok (anyMatch [litsPat (chars "uber")] ⟨(2024, 9, 2), -5, some (chars "UBER Ride")⟩)
    ∧ (maskE [chars "uber"] ⟨(2024, 9, 2), -5, some (chars "UBER Ride")⟩ = Except.ok true ↔
        ∃ p ∈ [litsPat (chars "uber")],
          reSearchP p (desc_lower ⟨(2024, 9, 2), -5, some (chars "UBER Ride")⟩) = true)
    ∧ (Txn.description ⟨(2024, 9, 2), -5, some (chars "UBER Ride")⟩ = none →
        desc_lower ⟨(2024, 9, 2), -5, some (chars "UBER Ride")⟩ = [])
    ∧ (∀ k ∈ [chars "uber"], (∀ c ∈ k, c ∉ reMetachars) →
        strContainsE k (desc_lower ⟨(2024, 9, 2), -5, some (chars "UBER Ride")⟩)
          = Except.ok (containsChars (desc_lower ⟨(2024, 9, 2), -5, some (chars "UBER Ride")⟩) k)) :=
  C2_match_iff_regex [chars "uber"] ⟨(2024, 9, 2), -5, some (chars "UBER Ride")⟩
    [litsPat (chars "uber")] (by decide)

/-- C2 counterexample: with the rule keyword text `a.c` and an expense
whose description is `Abc`, the code's mask matches (pandas
`str.contains` compiles the keyword as a regex, and `.` matches `b`), but
`a.c` is not a literal substring of the lowercased description `abc` — so
"matches if and only if … literal substring" is false of the program. -/
theorem C2_regex_not_substring :
    maskE (parse_keywords (chars "a.c")) ⟨(2024, 9, 1), -5, some (chars "Abc")⟩
      = Except.ok true
    ∧ containsChars (desc_lower ⟨(2024, 9, 1), -5, some (chars "Abc")⟩) (chars "a.c") = false
    ∧ ⟨(2024, 9, 1), -5, some (chars "Abc")⟩ ∈
        expenses [⟨(2024, 9, 1), -5, some (chars "Abc")⟩] := by decide

/-- C4 (amended): adding a keyword that compiles as a regular expression
can only grow the matched set (list containment) and can only increase
the rule's spent total, over any month's expense set — the evaluation
stays error-free and monotone; an invalid added keyword instead raises
`re.error` (see the counterexample). -/
theorem C4_keyword_monotonicity (ks : List Str) (k : Str) (md : List Txn)
    (ps : List RePat) (p : RePat)
    (hks : compileAll ks = some ps) (hk : reParse k = some p) :
    matchedE ks (expenses md) = Except.ok ((expenses md).filter (anyMatch ps))
    ∧ matchedE (ks ++ [k]) (expenses md)
        = Except.ok ((expenses md).filter (anyMatch (ps ++ [p])))
    ∧ (expenses md).filter (anyMatch ps) ⊆ (expenses md).filter (anyMatch (ps ++ [p]))
    ∧ cat_spent ((expenses md).filter (anyMatch ps))
        ≤ cat_spent ((expenses md).filter (anyMatch (ps ++ [p]))) := by
  refine ⟨?_, ?_, ?_, ?_⟩
  · simp [matchedE, hks]
  · simp [matchedE, compileAll_append ks k ps p hks hk]
  · intro x hx
    rw [List.mem_filter] at hx ⊢
    exact ⟨hx.1, by rw [anyMatch_append, hx.2, Bool.true_or]⟩
  · rw [cat_spent_eq_sum, cat_spent_eq_sum]
    apply sum_map_filter_mono
    · exact fun x hx => spent_nonneg_of_mem_expenses md x hx
    · intro x hx
      rw [anyMatch_append, hx, Bool.true_or]

/-- C4 witness: adding the valid keyword `gas` to the rule `uber` over a
one-expense month keeps evaluation error-free, with the matched set and
spent total monotone. -/
theorem C4_keyword_monotonicity_witness :
    matchedE [chars "uber"] (expenses [⟨(2024, 9, 2), -5, some (chars "UBER Ride")⟩])
      = Except.ok ((expenses [⟨(2024, 9, 2), -5, some (chars "UBER Ride")⟩]).filter
          (anyMatch [litsPat (chars "uber")]))
    ∧ matchedE ([chars "uber"] ++ [chars "gas"])
        (expenses [⟨(2024, 9, 2), -5, some (chars "UBER Ride")⟩])
      = Except.ok ((expenses [⟨(2024, 9, 2), -5, some (chars "UBER Ride")⟩]).filter
          (anyMatch ([litsPat (chars "uber")] ++ [litsPat (chars "gas")])))
    ∧ (expenses [⟨(2024, 9, 2), -5, some (chars "UBER Ride")⟩]).filter
          (anyMatch [litsPat (chars "uber")])
        ⊆ (expenses [⟨(2024, 9, 2), -5, some (chars "UBER Ride")⟩]).filter
          (anyMatch ([litsPat (chars "uber")] ++ [litsPat (chars "gas")]))
    ∧ cat_spent ((expenses [⟨(2024, 9, 2), -5, some (chars "UBER Ride")⟩]).filter
          (anyMatch [litsPat (chars "uber")]))
        ≤ cat_spent ((expenses [⟨(2024, 9, 2), -5, some (chars "UBER Ride")⟩]).filter
          (anyMatch ([litsPat (chars "uber")] ++ [litsPat (chars "gas")]))) :=
  C4_keyword_monotonicity [chars "uber"] (chars "gas")
    [⟨(2024, 9, 2), -5, some (chars "UBER Ride")⟩]
    [litsPat (chars "uber")] (litsPat (chars "gas")) (by decide) (by decide)

/-- C4 counterexample: the keyword text `uber,(` is reachable through the
rules editor and splits into the keywords `uber` and `(`; the rule with
`uber` alone evaluates to a matched set, but adding the keyword `(` — an
invalid regex pattern — makes `str.contains` raise `re.error` instead of
yielding any matched set, so "every additional keyword yields a superset"
is false of the program. -/
theorem C4_invalid_keyword_raises :
    parse_keywords (chars "uber,(") = [chars "uber"] ++ [chars "("]
    ∧ matchedE [chars "uber"] (expenses [⟨(2024, 9, 2), -5, some (chars "UBER Ride")⟩])
        = Except.ok [⟨(2024, 9, 2), -5, some (chars "UBER Ride")⟩]
    ∧ matchedE ([chars "uber"] ++ [chars "("])
        (expenses [⟨(2024, 9, 2), -5, some (chars "UBER Ride")⟩])
        = Except.error "re.error" := by decide
